import Mathlib

/-!
Shallow embedding of the staged document-classification pipeline of this
repository and of the HTTP error-envelope helpers in `src/api/errors.py`.

The stage implementations (`src/classification/stages/*.py`), the heuristic
matchers and the orchestrator are not present in the repository snapshot;
only their unit tests (`tests/unit/classification/test_common_stages.py`)
are.  Those definitions are therefore modelled from the specification, with
every behaviour that the tests pin down (return values, raised error kinds,
logged events, mock-call counts) reproduced exactly as the tests assert it.
`src/api/errors.py` is present and is embedded directly from the source.

Confidence floats only ever hold exact two-decimal constants in the
heuristic tables (0.75, 0.86, …), so confidences are embedded in exact
hundredths as naturals: confidence `c` here stands for the float `c / 100`
(0.75 is written 75).  Exceptions are embedded as `Except` results, and
"was this collaborator invoked" (which the tests check through mocks) as
explicit booleans in the result of each stage.

String helpers are re-implemented structurally over `List Char` so the
kernel can evaluate them on concrete inputs.
-/

/-- Lowercase one ASCII character (Python `str.lower` restricted to the
ASCII filenames and texts this pipeline sees). -/
def lowerChar (c : Char) : Char :=
  if 65 ≤ c.toNat && c.toNat ≤ 90 then Char.ofNat (c.toNat + 32) else c

/-- Lowercase a string. -/
def lowerStr (s : String) : String :=
  String.mk (s.data.map lowerChar)

/-- `pat` is a prefix of `s` (character lists). -/
def listStartsWith : List Char → List Char → Bool
  | _, [] => true
  | [], _ :: _ => false
  | a :: as, b :: bs => a == b && listStartsWith as bs

/-- `pat` occurs somewhere inside `s` (character lists). -/
def listContainsSub (s pat : List Char) : Bool :=
  match s with
  | [] => pat.isEmpty
  | _ :: rest => listStartsWith s pat || listContainsSub rest pat

/-- Python `sub in s`. -/
def containsSub (s sub : String) : Bool :=
  listContainsSub s.data sub.data

/-- Python `s.startswith(pat)`. -/
def strStartsWith (s pat : String) : Bool :=
  listStartsWith s.data pat.data

/-- Python whitespace as stripped by `str.strip()`. -/
def isSpaceChar (c : Char) : Bool :=
  c == ' ' || c == '\n' || c == '\t' || c == '\r' || c == '\x0b' || c == '\x0c'

/-- Python `not s.strip()`: the string is empty or all whitespace. -/
def isBlank (s : String) : Bool :=
  s.data.all isSpaceChar

/-- `sub` occurs somewhere inside `s`, as a proposition. -/
def strContains (s sub : String) : Prop :=
  ∃ pre post : String, s = pre ++ sub ++ post

/-- Mirrors `src.classification.types.StageOutcome`: an optional label with
an optional confidence (in hundredths); both `none` means "no opinion". -/
structure StageOutcome where
  label : Option String
  confidence : Option ℕ
deriving Repr, DecidableEq

/-- Mirrors `src.core.exceptions.MetadataProcessingError`, the single
designated processing-error kind; it carries the original message. -/
structure MetadataProcessingError where
  message : String
deriving Repr, DecidableEq

instance : DecidableEq (Except MetadataProcessingError StageOutcome) := fun a b =>
  match a, b with
  | .ok x, .ok y => decidable_of_iff (x = y) (by simp)
  | .error x, .error y => decidable_of_iff (x = y) (by simp)
  | .ok _, .error _ => isFalse (by simp)
  | .error _, .ok _ => isFalse (by simp)

/-- The document handle the stages receive (an `UploadFile`): an optional
filename and an optional content type.  The byte stream itself never
influences control flow in the embedding because extractor behaviour is
passed in explicitly, the way the tests inject it through mocks. -/
structure Document where
  filename : Option String
  contentType : Option String
deriving Repr, DecidableEq

/-- Modelled from the spec: the lowercase file extension parsed from the
filename (text after the last dot); `none` when the filename has no dot.
The concrete parsing routine lives in the missing stage modules. -/
def extOf (fn : String) : Option String :=
  let rev := fn.data.reverse
  if rev.contains '.' then
    some (String.mk (((rev.takeWhile (fun c => c != '.')).reverse).map lowerChar))
  else none

/-- Modelled from the spec: a heuristic matcher table is a list of
`(label, trigger substrings, fixed confidence)` rows; the first row one of
whose triggers occurs in the lowercased candidate text wins, and no match
yields `StageOutcome.mk none none`. -/
def matchTable (table : List (String × List String × ℕ)) (text : String) :
    StageOutcome :=
  match table.find?
      (fun row => row.2.1.any (fun trig => containsSub (lowerStr text) trig)) with
  | some row => ⟨some row.1, some row.2.2⟩
  | none => ⟨none, none⟩

/-- Modelled from the spec: the trigger table of the shared text heuristic
used by the text and ocr stages.  The fixed confidences the tests pin are
0.75 for a bank-statement text match and 0.72 for a form match. -/
def TEXT_HEURISTICS : List (String × List String × ℕ) :=
  [("invoice", ["invoice"], 78),
   ("bank_statement", ["bank statement", "account summary"], 75),
   ("drivers_licence", ["driving licence", "driver license"], 74),
   ("form", ["form", "application"], 72)]

/-- Modelled from the spec: the trigger table of the metadata heuristic; the
tests pin confidence 0.86 for an invoice metadata match. -/
def META_HEURISTICS : List (String × List String × ℕ) :=
  [("invoice", ["invoice"], 86),
   ("bank_statement", ["bank statement"], 80)]

/-- Modelled from the spec: substring trigger rows of the filename
heuristic; all fixed confidences sit inside [0.80, 0.95]. -/
def FILENAME_SUBSTR : List (String × List String × ℕ) :=
  [("invoice", ["invoice"], 85),
   ("bank_statement", ["bank_statement", "bank statement"], 85),
   ("financial_report", ["financial_report"], 85),
   ("drivers_licence", ["drivers_license", "drivers_licence"], 85),
   ("id_doc", ["id_card"], 85),
   ("contract", ["service_agreement", "contract"], 85),
   ("email", ["email", ".eml"], 85),
   ("form", ["application_form", "form"], 85)]

/-- Modelled from the spec: a strong start-of-filename match ("INV…") yields
a higher fixed confidence than a substring match, still inside
[0.80, 0.95]. -/
def FILENAME_STRONG : List (String × String × ℕ) :=
  [("invoice", "inv", 90)]

/-- Modelled from the spec: the filename heuristic matcher.  Strong
start-of-filename rows are tried first, then the substring table. -/
def matchFilename (fn : String) : StageOutcome :=
  match FILENAME_STRONG.find?
      (fun row => strStartsWith (lowerStr fn) row.2.1) with
  | some row => ⟨some row.1, some row.2.2⟩
  | none => matchTable FILENAME_SUBSTR (lowerStr fn)

/-- One structured log line: severity, event name, detail. -/
structure LogEntry where
  level : String
  event : String
  detail : String
deriving Repr, DecidableEq

/-- The observable result of one stage invocation: the outcome or the
raised `MetadataProcessingError`, plus which collaborators were invoked
(the facts the unit tests assert through mocks) and the log lines
emitted. -/
structure StageRun where
  result : Except MetadataProcessingError StageOutcome
  extractorCalled : Bool
  predictCalled : Bool
  heuristicCalled : Bool
  logs : List LogEntry
deriving Repr, DecidableEq

/-- A stage run that ended before touching any collaborator. -/
def skipRun : StageRun :=
  ⟨Except.ok ⟨none, none⟩, false, false, false, []⟩

/-- Behaviour of one extractor call, as the tests inject it: it returns
text or raises a generic exception. -/
inductive ExtractCall where
  | ok (text : String)
  | raiseGeneric (msg : String)
deriving Repr, DecidableEq

/-- Behaviour of one `predict` call: a `(label, confidence)` pair, the
explicit `ModelNotAvailableError` signal, or any other exception. -/
inductive PredictCall where
  | ok (label : Option String) (conf : Option ℕ)
  | notAvailable (msg : String)
  | raiseGeneric (msg : String)
deriving Repr, DecidableEq

/-- Modelled from the spec: the filename stage (`stage_filename`).  Guard:
an empty or absent filename short-circuits to no opinion without invoking
the matcher; otherwise the filename heuristic decides.  The boolean records
whether the matcher was invoked. -/
def stage_filename (doc : Document) : StageOutcome × Bool :=
  match doc.filename with
  | none => (⟨none, none⟩, false)
  | some fn => if fn = "" then (⟨none, none⟩, false) else (matchFilename fn, true)

/-- Modelled from the spec: the common shape of the model-backed stages
(`stage_text`, `stage_ocr`), which differ only in their extractor registry
and log-event namespace `pfx`.  Flow: extension guard against the registry,
extraction (a generic extractor exception is logged and degrades to no
opinion, as the stage tests assert), blank-text guard, model prediction
when the process-wide flag is set (model-unavailable falls back to the
shared text heuristic after a warning; any other predictor exception is
logged and degrades to no opinion), else the heuristic directly. -/
def modelStage (pfx : String) (registry : List String)
    (extractor : ExtractCall) (modelAvailable : Bool)
    (predictor : PredictCall) (doc : Document) : StageRun :=
  match doc.filename with
  | none => skipRun
  | some fn =>
    match extOf fn with
    | none => skipRun
    | some ext =>
      if registry.contains ext then
        match extractor with
        | .raiseGeneric msg =>
          ⟨Except.ok ⟨none, none⟩, true, false, false,
            [⟨"error", pfx ++ "_stage_extraction_error", msg⟩]⟩
        | .ok text =>
          if isBlank text then ⟨Except.ok ⟨none, none⟩, true, false, false, []⟩
          else
            let heur := matchTable TEXT_HEURISTICS text
            let heurLog : LogEntry :=
              if heur.label.isSome then
                ⟨"debug", pfx ++ "_stage_heuristic_match", text⟩
              else ⟨"debug", pfx ++ "_stage_no_match", text⟩
            if modelAvailable then
              match predictor with
              | .ok (some l) c =>
                ⟨Except.ok ⟨some l, c⟩, true, true, false,
                  [⟨"debug", pfx ++ "_stage_model_prediction", fn⟩]⟩
              | .ok none _ =>
                ⟨Except.ok heur, true, true, true,
                  [⟨"debug", pfx ++ "_stage_model_no_prediction", text⟩, heurLog]⟩
              | .notAvailable _ =>
                ⟨Except.ok heur, true, true, true,
                  [⟨"warning", pfx ++ "_stage_model_not_available",
                     "fallback=heuristics"⟩, heurLog]⟩
              | .raiseGeneric msg =>
                ⟨Except.ok ⟨none, none⟩, true, true, false,
                  [⟨"error", pfx ++ "_stage_model_prediction_error", msg⟩]⟩
            else
              ⟨Except.ok heur, true, false, true, [heurLog]⟩
      else skipRun

/-- Modelled from the spec: `stage_text`, the text stage, an instance of
the common model-backed stage over the text extractor registry. -/
def stage_text (registry : List String) (extractor : ExtractCall)
    (modelAvailable : Bool) (predictor : PredictCall) (doc : Document) :
    StageRun :=
  modelStage "text" registry extractor modelAvailable predictor doc

/-- Modelled from the spec: `stage_ocr`, the ocr stage, an instance of the
common model-backed stage over the image extractor registry. -/
def stage_ocr (registry : List String) (extractor : ExtractCall)
    (modelAvailable : Bool) (predictor : PredictCall) (doc : Document) :
    StageRun :=
  modelStage "ocr" registry extractor modelAvailable predictor doc

/-- Behaviour of one call to `_extract_pdf_metadata`, as the metadata-stage
tests inject it: text, an already-wrapped `MetadataProcessingError` coming
from the worker, or a generic exception. -/
inductive MetaCall where
  | ok (text : String)
  | procError (msg : String)
  | raiseGeneric (msg : String)
deriving Repr, DecidableEq

/-- Behaviour of the pdfminer `extract_text` call inside the metadata
worker. -/
inductive PdfMinerCall where
  | ok (text : String)
  | pdfKnownError (msg : String)
  | extractionDenied
  | raiseGeneric (msg : String)
deriving Repr, DecidableEq

/-- Modelled from the spec: the worker inside `_extract_pdf_metadata`.
Known pdfminer errors and denied extraction degrade to empty text after a
warning; an unexpected exception is wrapped into
`MetadataProcessingError` with the worker message the tests pin. -/
def pdfMetadataWorker (call : PdfMinerCall) : MetaCall :=
  match call with
  | .ok t => .ok t
  | .pdfKnownError _ => .ok ""
  | .extractionDenied => .ok ""
  | .raiseGeneric m =>
    .procError ("Unexpected error in PDF metadata worker: " ++ m)

/-- Modelled from the spec: `stage_metadata`.  Guard: only `.pdf` documents
apply.  Reading the document may fail (`readRes`), which is logged and
wrapped into `MetadataProcessingError`; a `MetadataProcessingError` from
`_extract_pdf_metadata` is re-raised unchanged; any other extraction
exception is logged and wrapped; blank metadata is no opinion; otherwise
the metadata heuristic decides. -/
def stage_metadata (readRes : Except String Unit) (extract : MetaCall)
    (doc : Document) : StageRun :=
  match doc.filename with
  | none => skipRun
  | some fn =>
    if extOf fn = some "pdf" then
      match readRes with
      | .error m =>
        ⟨Except.error ⟨"File I/O error in metadata stage: " ++ m⟩,
          false, false, false, [⟨"error", "metadata_stage_io_error", m⟩]⟩
      | .ok _ =>
        match extract with
        | .procError m => ⟨Except.error ⟨m⟩, true, false, false, []⟩
        | .raiseGeneric m =>
          ⟨Except.error ⟨"General processing error in metadata stage: " ++ m⟩,
            true, false, false,
            [⟨"error", "metadata_stage_processing_error", m⟩]⟩
        | .ok t =>
          if isBlank t then ⟨Except.ok ⟨none, none⟩, true, false, false, []⟩
          else ⟨Except.ok (matchTable META_HEURISTICS t), true, false, true, []⟩
    else skipRun

/-- A stage outcome counts as decisive when its confidence is at or above
the orchestrator early-exit threshold. -/
def highConf (θ : ℕ) (o : StageOutcome) : Bool :=
  match o.confidence with
  | some c => θ ≤ c
  | none => false

/-- Modelled from the spec: keep the better of two outcomes, the
higher-confidence one, with ties broken in favour of the earlier (cheaper)
stage, which is the accumulator. -/
def pickBest (best cur : StageOutcome) : StageOutcome :=
  match cur.confidence, best.confidence with
  | none, _ => best
  | some _, none => cur
  | some c, some b => if b < c then cur else best

/-- Modelled from the spec: the orchestrator loop.  Stages are consumed in
priority order; an uncontained processing error propagates immediately; an
outcome at or above the threshold is returned immediately; otherwise the
best outcome so far is carried on.  The returned number counts the stages
actually invoked, so early exit is visible in the result. -/
def classifyAux (θ : ℕ) (best : StageOutcome) :
    List (Except MetadataProcessingError StageOutcome) →
    Except MetadataProcessingError StageOutcome × ℕ
  | [] => (Except.ok best, 0)
  | s :: rest =>
    match s with
    | .error e => (Except.error e, 1)
    | .ok o =>
      if highConf θ o then (Except.ok o, 1)
      else ((classifyAux θ (pickBest best o) rest).1,
        (classifyAux θ (pickBest best o) rest).2 + 1)

/-- Modelled from the spec: `classify`, run over the stage results in the
fixed priority order filename, metadata, text, ocr. -/
def classify (θ : ℕ)
    (stages : List (Except MetadataProcessingError StageOutcome)) :
    Except MetadataProcessingError StageOutcome × ℕ :=
  classifyAux θ ⟨none, none⟩ stages

/-- JSON values, as produced by the error-envelope helpers in
`src/api/errors.py`. -/
inductive JVal where
  | s (v : String)
  | n (v : ℤ)
  | null
  | arr (vs : List JVal)
  | obj (fields : List (String × JVal))
deriving Repr

/-- The `code` argument of `_build_error_payload`: a snake_case string or an
HTTP status integer (`code: str | int`). -/
inductive CodeVal where
  | str (v : String)
  | int (v : ℤ)
deriving Repr, DecidableEq

/-- Inject a code into JSON. -/
def codeToJVal : CodeVal → JVal
  | .str v => .s v
  | .int v => .n v

/-- `None`-able string to JSON (`request_id` may be absent). -/
def optStr : Option String → JVal
  | none => .null
  | some v => .s v

/-- Python `dict.update` on an insertion-ordered string-keyed dict: each
entry of `extra` overwrites an existing key in place or is appended. -/
def dictUpdate (d extra : List (String × JVal)) : List (String × JVal) :=
  extra.foldl
    (fun acc kv =>
      if acc.any (fun p => p.1 == kv.1) then
        acc.map (fun p => if p.1 == kv.1 then (p.1, kv.2) else p)
      else acc ++ [kv])
    d

/-- Embeds `_build_error_payload` (src/api/errors.py, lines 17–46): the
`{"error": {code, message, request_id}}` envelope, with `extra` merged into
the `"error"` object only when it is truthy (neither `None` nor empty). -/
def build_error_payload (code : CodeVal) (message : String)
    (request_id : Option String) (extra : Option (List (String × JVal))) :
    List (String × JVal) :=
  let errObj : List (String × JVal) :=
    [("code", codeToJVal code), ("message", JVal.s message),
     ("request_id", optStr request_id)]
  let errObj :=
    match extra with
    | none => errObj
    | some e => if e.isEmpty then errObj else dictUpdate errObj e
  [("error", JVal.obj errObj)]

/-- One entry of `RequestValidationError.errors()`:
`{"loc": …, "msg": …, "type": …}`. -/
structure ErrDetail where
  loc : List JVal
  msg : String
  typ : String
deriving Repr

/-- JSON form of one validation-error detail. -/
def detailToJVal (d : ErrDetail) : JVal :=
  .obj [("loc", .arr d.loc), ("msg", .s d.msg), ("type", .s d.typ)]

/-- The exception handed to `_validation_error_handler`: a
`RequestValidationError` carrying its details, or any other exception,
observed through its string form. -/
inductive PyExc where
  | validation (errors : List ErrDetail)
  | other (msg : String)
deriving Repr

/-- A `JSONResponse`: HTTP status code plus JSON body. -/
structure JSONResponse where
  status_code : ℕ
  content : List (String × JVal)
deriving Repr

/-- Embeds `_validation_error_handler` (src/api/errors.py, lines 80–107):
a non-`RequestValidationError` is first wrapped into a synthetic one whose
single detail has empty `loc`, `msg = str(exc)` and `type = "error"`; the
response is always 422 with code `"validation_error"`, message
`"Invalid request parameters."` and the details merged in as `extra`.
`xRequestId` stands for `request.headers.get("x-request-id")`. -/
def validation_error_handler (xRequestId : Option String) (exc : PyExc) :
    JSONResponse :=
  let errs : List ErrDetail :=
    match exc with
    | .validation es => es
    | .other m => [⟨[], m, "error"⟩]
  let payload := build_error_payload (.str "validation_error")
    "Invalid request parameters." xRequestId
    (some [("details", JVal.arr (errs.map detailToJVal))])
  ⟨422, payload⟩

/-- The `"error"` object inside a payload built by `_build_error_payload`. -/
def errFields (payload : List (String × JVal)) : List (String × JVal) :=
  match payload.find? (fun p => p.1 == "error") with
  | some (_, .obj fields) => fields
  | _ => []

/-- Key lookup in an insertion-ordered string-keyed dict. -/
def lookupKey (d : List (String × JVal)) (k : String) : Option JVal :=
  (d.find? (fun p => p.1 == k)).map (fun p => p.2)

/-- The key list of an insertion-ordered string-keyed dict. -/
def keysOf (d : List (String × JVal)) : List String :=
  d.map (fun p => p.1)

example : keysOf (errFields (build_error_payload (.str "x") "m" none none)) =
    ["code", "message", "request_id"] := by rfl
example :
    (validation_error_handler (some "rid") (.other "boom")).status_code =
      422 := by rfl
example :
    lookupKey
      (errFields (validation_error_handler (some "rid") (.other "boom")).content)
      "details" = some (.arr [detailToJVal ⟨[], "boom", "error"⟩]) := by rfl

example : stage_filename ⟨some "invoice_123.pdf", none⟩ =
    (⟨some "invoice", some 90⟩, true) := by decide
example : stage_filename ⟨some "unknown.dat", none⟩ =
    (⟨none, none⟩, true) := by decide
example : matchTable TEXT_HEURISTICS "bank statement keywords here" =
    ⟨some "bank_statement", some 75⟩ := by decide
example : matchTable META_HEURISTICS "This is an Invoice" =
    ⟨some "invoice", some 86⟩ := by decide
example : matchFilename "INV001.pdf" = ⟨some "invoice", some 90⟩ := by decide
example : matchFilename "application_form_v2.pdf" = ⟨some "form", some 85⟩ := by
  decide
example : matchFilename "important_email.eml" = ⟨some "email", some 85⟩ := by
  decide
example : matchFilename "drivers_license_scan.jpg" =
    ⟨some "drivers_licence", some 85⟩ := by decide
example : extOf "path/to/invoice.pdf" = some "pdf" := by decide
example : extOf "archive" = none := by decide
example :
    (stage_text ["txt"] (.raiseGeneric "boom") true (.ok none none)
      ⟨some "error.txt", none⟩).result = Except.ok ⟨none, none⟩ := by decide

lemma matchTable_inv (tb : List (String × List String × ℕ)) (t : String)
    (hc : (matchTable tb t).confidence ≠ none) :
    (matchTable tb t).label ≠ none := by
  unfold matchTable at hc ⊢
  cases h : List.find?
      (fun row => row.2.1.any (fun trig => containsSub (lowerStr t) trig)) tb <;>
    simp [h] at hc ⊢

lemma matchFilename_inv (fn : String)
    (hc : (matchFilename fn).confidence ≠ none) :
    (matchFilename fn).label ≠ none := by
  unfold matchFilename at hc ⊢
  cases h : List.find?
      (fun row => strStartsWith (lowerStr fn) row.2.1) FILENAME_STRONG
  · simp only [h] at hc ⊢
    exact matchTable_inv _ _ hc
  · simp [h] at hc ⊢

lemma modelStage_inv (pfx : String) (reg : List String) (extr : ExtractCall)
    (avail : Bool) (pred : PredictCall) (doc : Document) (o : StageOutcome)
    (h : (modelStage pfx reg extr avail pred doc).result = Except.ok o)
    (hc : o.confidence ≠ none) : o.label ≠ none := by
  unfold modelStage at h
  rcases hdoc : doc.filename with _ | fn <;> simp only [hdoc] at h
  · simp [skipRun] at h; subst h; simp_all
  · rcases hext : extOf fn with _ | ext <;> simp only [hext] at h
    · simp [skipRun] at h; subst h; simp_all
    · by_cases hreg : reg.contains ext = true
      · simp only [hreg, if_true] at h
        rcases extr with t | msg
        · by_cases hb : isBlank t = true
          · simp only [hb, if_true] at h
            simp at h; subst h; simp_all
          · simp only [Bool.not_eq_true] at hb
            simp only [hb, Bool.false_eq_true, if_false] at h
            rcases avail with _ | _
            · simp only [Bool.false_eq_true, if_false] at h
              simp at h; subst h; exact matchTable_inv _ _ hc
            · simp only [if_true] at h
              rcases pred with ⟨l, c⟩ | m | m
              · rcases l with _ | l
                · simp at h; subst h; exact matchTable_inv _ _ hc
                · simp at h; subst h; simp
              · simp at h; subst h; exact matchTable_inv _ _ hc
              · simp at h; subst h; simp_all
        · simp at h; subst h; simp_all
      · simp only [Bool.not_eq_true] at hreg
        simp only [hreg, Bool.false_eq_true, if_false] at h
        simp [skipRun] at h; subst h; simp_all

lemma stage_metadata_inv (readRes : Except String Unit) (extc : MetaCall)
    (doc : Document) (o : StageOutcome)
    (h : (stage_metadata readRes extc doc).result = Except.ok o)
    (hc : o.confidence ≠ none) : o.label ≠ none := by
  unfold stage_metadata at h
  rcases hdoc : doc.filename with _ | fn <;> simp only [hdoc] at h
  · simp [skipRun] at h; subst h; simp_all
  · by_cases hpdf : extOf fn = some "pdf"
    · simp only [hpdf, if_pos] at h
      rcases readRes with m | u
      · simp at h
      · rcases extc with t | m | m
        · by_cases hb : isBlank t = true
          · simp only [hb, if_true] at h; simp at h; subst h; simp_all
          · simp only [Bool.not_eq_true] at hb
            simp only [hb, Bool.false_eq_true, if_false] at h
            simp at h; subst h; exact matchTable_inv _ _ hc
        · simp at h
        · simp at h
    · simp only [hpdf, if_neg, if_false] at h
      simp [skipRun] at h; subst h; simp_all

/-- C8: the filename stage maps `"invoice_123.pdf"` to label `"invoice"`
with a confidence inside [0.80, 0.95] (hundredths: [80, 95]); a filename
matching no trigger, such as `"unknown.dat"`, yields no opinion although
the matcher ran; an empty or absent filename yields `Outcome(None, None)`
without invoking the heuristic matcher (second component `false`). -/
theorem claim_C8 :
    (∃ c, stage_filename ⟨some "invoice_123.pdf", some "application/pdf"⟩ =
        (⟨some "invoice", some c⟩, true) ∧ 80 ≤ c ∧ c ≤ 95) ∧
    stage_filename ⟨some "unknown.dat", some "application/octet-stream"⟩ =
      (⟨none, none⟩, true) ∧
    stage_filename ⟨some "", some "application/octet-stream"⟩ =
      (⟨none, none⟩, false) ∧
    stage_filename ⟨none, some "application/octet-stream"⟩ =
      (⟨none, none⟩, false) :=
  ⟨⟨90, by decide, by decide, by decide⟩, by decide, by decide, by decide⟩

/-- C1 is false as stated: the text stage does not wrap an unexpected
extractor error into the processing-error type; it swallows it into
`Outcome(None, None)` (the run it returns carries an `ok` result, not a
raised error), exactly as `test_stage_text_extraction_error` asserts. -/
theorem claim_C1_counterexample :
    (stage_text ["txt"] (.raiseGeneric "Simulated extraction error") true
        (.ok none none) ⟨some "error.txt", some "text/plain"⟩).result =
      Except.ok ⟨none, none⟩ := by decide

/-- C1 (amended): only the metadata stage wraps unexpected errors — a
failed document read or a generic extraction exception — into the single
designated `MetadataProcessingError`, carrying the original message as a
substring, and re-raises it (a `MetadataProcessingError` coming from the
worker is re-raised unchanged); the text and ocr stages instead log the
unexpected extractor error and return `Outcome(None, None)`. -/
theorem claim_C1_amended (m fn : String) (reg : List String)
    (avail : Bool) (pred : PredictCall) (extc : MetaCall) (doc : Document)
    (hfn : doc.filename = some fn) (hpdf : extOf fn = some "pdf")
    (hreg : reg.contains "pdf" = true) :
    ((stage_metadata (Except.error m) extc doc).result =
        Except.error ⟨"File I/O error in metadata stage: " ++ m⟩ ∧
      strContains ("File I/O error in metadata stage: " ++ m) m) ∧
    ((stage_metadata (Except.ok ()) (.raiseGeneric m) doc).result =
        Except.error ⟨"General processing error in metadata stage: " ++ m⟩ ∧
      strContains ("General processing error in metadata stage: " ++ m) m) ∧
    ((stage_metadata (Except.ok ()) (pdfMetadataWorker (.raiseGeneric m))
          doc).result =
        Except.error ⟨"Unexpected error in PDF metadata worker: " ++ m⟩ ∧
      strContains ("Unexpected error in PDF metadata worker: " ++ m) m) ∧
    ((stage_text reg (.raiseGeneric m) avail pred doc).result =
        Except.ok ⟨none, none⟩ ∧
      (⟨"error", "text_stage_extraction_error", m⟩ : LogEntry) ∈
        (stage_text reg (.raiseGeneric m) avail pred doc).logs) ∧
    ((stage_ocr reg (.raiseGeneric m) avail pred doc).result =
        Except.ok ⟨none, none⟩ ∧
      (⟨"error", "ocr_stage_extraction_error", m⟩ : LogEntry) ∈
        (stage_ocr reg (.raiseGeneric m) avail pred doc).logs) := by
  have hmem : "pdf" ∈ reg := by simpa using hreg
  refine ⟨⟨?_, "File I/O error in metadata stage: ", "", by simp⟩,
    ⟨?_, "General processing error in metadata stage: ", "", by simp⟩,
    ⟨?_, "Unexpected error in PDF metadata worker: ", "", by simp⟩,
    ⟨?_, ?_⟩, ⟨?_, ?_⟩⟩ <;>
    simp [stage_metadata, stage_text, stage_ocr, modelStage,
      pdfMetadataWorker, hfn, hpdf, hreg, hmem]

/-- Witness for C1 (amended) at the inputs of
`test_stage_metadata_processing_error`. -/
theorem claim_C1_witness :
    (stage_metadata (Except.error "Simulated read error") (.ok "")
        ⟨some "error.pdf", some "application/pdf"⟩).result =
      Except.error
        ⟨"File I/O error in metadata stage: " ++ "Simulated read error"⟩ ∧
    strContains ("File I/O error in metadata stage: " ++ "Simulated read error")
      "Simulated read error" := by
  have h := claim_C1_amended "Simulated read error" "error.pdf" ["pdf"]
    true (.ok none none) (.ok "")
    ⟨some "error.pdf", some "application/pdf"⟩ rfl (by decide) (by decide)
  exact ⟨h.1.1, h.1.2⟩

/-- C5: for every stage and every input, an outcome the stage returns with
a non-`none` confidence also has a non-`none` label. -/
theorem claim_C5 (doc : Document) (reg : List String) (extr : ExtractCall)
    (avail : Bool) (pred : PredictCall) (readRes : Except String Unit)
    (extc : MetaCall) (o : StageOutcome)
    (hsrc : (stage_filename doc).1 = o ∨
      (stage_metadata readRes extc doc).result = Except.ok o ∨
      (stage_text reg extr avail pred doc).result = Except.ok o ∨
      (stage_ocr reg extr avail pred doc).result = Except.ok o)
    (hconf : o.confidence ≠ none) : o.label ≠ none := by
  rcases hsrc with h | h | h | h
  · subst h
    unfold stage_filename at hconf ⊢
    rcases hdoc : doc.filename with _ | fn <;> simp only [hdoc] at hconf ⊢
    · simp_all
    · by_cases hfn : fn = ""
      · simp_all
      · simp only [hfn, if_neg, if_false] at hconf ⊢
        exact matchFilename_inv fn hconf
  · exact stage_metadata_inv readRes extc doc o h hconf
  · exact modelStage_inv "text" reg extr avail pred doc o h hconf
  · exact modelStage_inv "ocr" reg extr avail pred doc o h hconf

/-- Witness for C5: the filename stage on `"invoice_123.pdf"` has a
confidence, and the invariant yields its label. -/
theorem claim_C5_witness :
    (stage_filename ⟨some "invoice_123.pdf", none⟩).1.label ≠ none :=
  claim_C5 ⟨some "invoice_123.pdf", none⟩ [] (.ok "") true (.ok none none)
    (Except.ok ()) (.ok "") (stage_filename ⟨some "invoice_123.pdf", none⟩).1
    (Or.inl rfl) (by decide)

lemma modelStage_blank (pfx : String) (reg : List String) (avail : Bool)
    (pred : PredictCall) (doc : Document) (t : String)
    (hb : isBlank t = true) :
    (modelStage pfx reg (.ok t) avail pred doc).result =
      Except.ok ⟨none, none⟩ ∧
    (modelStage pfx reg (.ok t) avail pred doc).predictCalled = false := by
  unfold modelStage
  rcases hdoc : doc.filename with _ | fn <;> simp only [hdoc]
  · simp [skipRun]
  · rcases hext : extOf fn with _ | ext <;> simp only [hext]
    · simp [skipRun]
    · by_cases hreg : ext ∈ reg
      · simp [hreg, hb]
      · simp [hreg, skipRun]

/-- C6: whenever the extractor yields text that is empty or whitespace-only
(Python `not text.strip()`), the text, ocr and metadata stages all return
`Outcome(None, None)` and the model predictor is never invoked
(`predictCalled = false`); this holds whatever the registry, model flag,
predictor behaviour and document. -/
theorem claim_C6 (reg : List String) (t : String) (avail : Bool)
    (pred : PredictCall) (doc : Document) (hb : isBlank t = true) :
    ((stage_text reg (.ok t) avail pred doc).result =
        Except.ok ⟨none, none⟩ ∧
      (stage_text reg (.ok t) avail pred doc).predictCalled = false) ∧
    ((stage_ocr reg (.ok t) avail pred doc).result =
        Except.ok ⟨none, none⟩ ∧
      (stage_ocr reg (.ok t) avail pred doc).predictCalled = false) ∧
    ((stage_metadata (Except.ok ()) (.ok t) doc).result =
        Except.ok ⟨none, none⟩ ∧
      (stage_metadata (Except.ok ()) (.ok t) doc).predictCalled = false) := by
  refine ⟨modelStage_blank "text" reg avail pred doc t hb,
    modelStage_blank "ocr" reg avail pred doc t hb, ?_⟩
  unfold stage_metadata
  rcases hdoc : doc.filename with _ | fn <;> simp only [hdoc]
  · simp [skipRun]
  · by_cases hpdf : extOf fn = some "pdf"
    · simp [hpdf, hb]
    · simp [hpdf, skipRun]

/-- Witness for C6 at the inputs of `test_stage_text_empty_extracted_text`:
whitespace-only extracted text. -/
theorem claim_C6_witness :
    ((stage_text ["txt"] (.ok "  ") true (.ok none none)
          ⟨some "empty.txt", some "text/plain"⟩).result =
        Except.ok ⟨none, none⟩ ∧
      (stage_text ["txt"] (.ok "  ") true (.ok none none)
          ⟨some "empty.txt", some "text/plain"⟩).predictCalled = false) ∧
    ((stage_ocr ["txt"] (.ok "  ") true (.ok none none)
          ⟨some "empty.txt", some "text/plain"⟩).result =
        Except.ok ⟨none, none⟩ ∧
      (stage_ocr ["txt"] (.ok "  ") true (.ok none none)
          ⟨some "empty.txt", some "text/plain"⟩).predictCalled = false) ∧
    ((stage_metadata (Except.ok ()) (.ok "  ")
          ⟨some "empty.txt", some "text/plain"⟩).result =
        Except.ok ⟨none, none⟩ ∧
      (stage_metadata (Except.ok ()) (.ok "  ")
          ⟨some "empty.txt", some "text/plain"⟩).predictCalled = false) :=
  claim_C6 ["txt"] "  " true (.ok none none)
    ⟨some "empty.txt", some "text/plain"⟩ (by decide)

lemma modelStage_skip (pfx : String) (reg : List String) (extr : ExtractCall)
    (avail : Bool) (pred : PredictCall) (doc : Document)
    (h : ∀ fn ext, doc.filename = some fn → extOf fn = some ext →
      reg.contains ext = false) :
    modelStage pfx reg extr avail pred doc = skipRun := by
  unfold modelStage
  rcases hdoc : doc.filename with _ | fn <;> simp only [hdoc]
  · rcases hext : extOf fn with _ | ext <;> simp only [hext]
    · have hmem : ext ∉ reg := by simpa using h fn ext hdoc hext
      simp [hmem]

/-- C7: when the document's filename is absent, has no extension, or has an
extension missing from the stage's registry (the metadata stage's registry
being the single entry `pdf`), the stage returns the `skipRun` record:
`Outcome(None, None)` without invoking any extractor. -/
theorem claim_C7 (regT regO : List String) (extr : ExtractCall)
    (avail : Bool) (pred : PredictCall) (readRes : Except String Unit)
    (extc : MetaCall) (doc : Document)
    (h1 : ∀ fn ext, doc.filename = some fn → extOf fn = some ext →
      regT.contains ext = false)
    (h2 : ∀ fn ext, doc.filename = some fn → extOf fn = some ext →
      regO.contains ext = false)
    (h3 : ∀ fn, doc.filename = some fn → ¬extOf fn = some "pdf") :
    stage_text regT extr avail pred doc = skipRun ∧
    stage_ocr regO extr avail pred doc = skipRun ∧
    stage_metadata readRes extc doc = skipRun ∧
    skipRun.result = Except.ok ⟨none, none⟩ ∧
    skipRun.extractorCalled = false := by
  refine ⟨modelStage_skip _ _ _ _ _ _ h1, modelStage_skip _ _ _ _ _ _ h2,
    ?_, rfl, rfl⟩
  unfold stage_metadata
  rcases hdoc : doc.filename with _ | fn <;> simp only [hdoc]
  · simp [h3 fn hdoc]

/-- Witness for C7 at the inputs of `test_stage_text_unsupported_extension`:
a `.zip` document against an empty registry. -/
theorem claim_C7_witness :
    stage_text [] (.ok "x") true (.ok none none)
        ⟨some "archive.zip", some "application/zip"⟩ = skipRun ∧
    stage_metadata (Except.ok ()) (.ok "x")
        ⟨some "archive.zip", some "application/zip"⟩ = skipRun := by
  have h := claim_C7 [] [] (.ok "x") true (.ok none none) (Except.ok ())
    (.ok "x") ⟨some "archive.zip", some "application/zip"⟩
    (fun _ _ _ _ => rfl) (fun _ _ _ _ => rfl)
    (fun fn hfn => by cases hfn; decide)
  exact ⟨h.1, h.2.2.1⟩

lemma modelStage_notAvailable (pfx : String) (reg : List String)
    (fn ext t msg : String) (doc : Document)
    (hfn : doc.filename = some fn) (hext : extOf fn = some ext)
    (hreg : reg.contains ext = true) (hnb : isBlank t = false) :
    (modelStage pfx reg (.ok t) true (.notAvailable msg) doc).result =
      Except.ok (matchTable TEXT_HEURISTICS t) ∧
    (modelStage pfx reg (.ok t) true (.notAvailable msg) doc).predictCalled =
      true ∧
    (modelStage pfx reg (.ok t) true
        (.notAvailable msg) doc).heuristicCalled = true ∧
    (⟨"warning", pfx ++ "_stage_model_not_available", "fallback=heuristics"⟩ :
        LogEntry) ∈
      (modelStage pfx reg (.ok t) true (.notAvailable msg) doc).logs := by
  unfold modelStage
  simp only [hfn, hext, hreg, if_true, hnb, Bool.false_eq_true, if_false]
  simp

/-- C2: on the explicit model-unavailable signal, the text and ocr stages
log the fallback warning, run the heuristic matcher on the same extracted
text `t`, and return the heuristic outcome; on the bank-statement sample
text the heuristic's fixed confidence is 0.75 (75 hundredths). -/
theorem claim_C2 (reg : List String) (fn ext t msg : String) (doc : Document)
    (hfn : doc.filename = some fn) (hext : extOf fn = some ext)
    (hreg : reg.contains ext = true) (hnb : isBlank t = false) :
    ((stage_text reg (.ok t) true (.notAvailable msg) doc).result =
        Except.ok (matchTable TEXT_HEURISTICS t) ∧
      (stage_text reg (.ok t) true (.notAvailable msg) doc).predictCalled =
        true ∧
      (stage_text reg (.ok t) true
          (.notAvailable msg) doc).heuristicCalled = true ∧
      (⟨"warning", "text_stage_model_not_available", "fallback=heuristics"⟩ :
          LogEntry) ∈
        (stage_text reg (.ok t) true (.notAvailable msg) doc).logs) ∧
    ((stage_ocr reg (.ok t) true (.notAvailable msg) doc).result =
        Except.ok (matchTable TEXT_HEURISTICS t) ∧
      (stage_ocr reg (.ok t) true (.notAvailable msg) doc).predictCalled =
        true ∧
      (stage_ocr reg (.ok t) true
          (.notAvailable msg) doc).heuristicCalled = true ∧
      (⟨"warning", "ocr_stage_model_not_available", "fallback=heuristics"⟩ :
          LogEntry) ∈
        (stage_ocr reg (.ok t) true (.notAvailable msg) doc).logs) ∧
    matchTable TEXT_HEURISTICS "bank statement keywords here" =
      ⟨some "bank_statement", some 75⟩ := by
  have ht := modelStage_notAvailable "text" reg fn ext t msg doc hfn hext hreg hnb
  have ho := modelStage_notAvailable "ocr" reg fn ext t msg doc hfn hext hreg hnb
  exact ⟨⟨ht.1, ht.2.1, ht.2.2.1, ht.2.2.2⟩,
    ⟨ho.1, ho.2.1, ho.2.2.1, ho.2.2.2⟩, by decide⟩

/-- Witness for C2 at the inputs of
`test_stage_text_model_unavailable_fallback_heuristic`. -/
theorem claim_C2_witness :
    (stage_text ["csv"] (.ok "bank statement keywords here") true
        (.notAvailable "Model not found")
        ⟨some "statement.csv", some "text/csv"⟩).result =
      Except.ok ⟨some "bank_statement", some 75⟩ ∧
    (⟨"warning", "text_stage_model_not_available", "fallback=heuristics"⟩ :
        LogEntry) ∈
      (stage_text ["csv"] (.ok "bank statement keywords here") true
        (.notAvailable "Model not found")
        ⟨some "statement.csv", some "text/csv"⟩).logs := by
  have h := claim_C2 ["csv"] "statement.csv" "csv"
    "bank statement keywords here" "Model not found"
    ⟨some "statement.csv", some "text/csv"⟩ rfl (by decide) (by decide)
    (by decide)
  refine ⟨?_, h.1.2.2.2⟩
  rw [h.1.1]
  decide

lemma modelStage_predictError (pfx : String) (reg : List String)
    (fn ext t msg : String) (doc : Document)
    (hfn : doc.filename = some fn) (hext : extOf fn = some ext)
    (hreg : reg.contains ext = true) (hnb : isBlank t = false) :
    (modelStage pfx reg (.ok t) true (.raiseGeneric msg) doc).result =
      Except.ok ⟨none, none⟩ ∧
    (modelStage pfx reg (.ok t) true (.raiseGeneric msg) doc).predictCalled =
      true ∧
    (modelStage pfx reg (.ok t) true
        (.raiseGeneric msg) doc).heuristicCalled = false ∧
    (⟨"error", pfx ++ "_stage_model_prediction_error", msg⟩ : LogEntry) ∈
      (modelStage pfx reg (.ok t) true (.raiseGeneric msg) doc).logs := by
  unfold modelStage
  simp only [hfn, hext, hreg, if_true, hnb, Bool.false_eq_true, if_false]
  simp

/-- C3: a predictor exception other than the model-unavailable signal is
logged as an error and the text/ocr stage returns `Outcome(None, None)`:
the run's result is an `ok` value (nothing propagates) and the heuristic
matcher is not attempted (`heuristicCalled = false`). -/
theorem claim_C3 (reg : List String) (fn ext t msg : String) (doc : Document)
    (hfn : doc.filename = some fn) (hext : extOf fn = some ext)
    (hreg : reg.contains ext = true) (hnb : isBlank t = false) :
    ((stage_text reg (.ok t) true (.raiseGeneric msg) doc).result =
        Except.ok ⟨none, none⟩ ∧
      (stage_text reg (.ok t) true
          (.raiseGeneric msg) doc).heuristicCalled = false ∧
      (⟨"error", "text_stage_model_prediction_error", msg⟩ : LogEntry) ∈
        (stage_text reg (.ok t) true (.raiseGeneric msg) doc).logs) ∧
    ((stage_ocr reg (.ok t) true (.raiseGeneric msg) doc).result =
        Except.ok ⟨none, none⟩ ∧
      (stage_ocr reg (.ok t) true
          (.raiseGeneric msg) doc).heuristicCalled = false ∧
      (⟨"error", "ocr_stage_model_prediction_error", msg⟩ : LogEntry) ∈
        (stage_ocr reg (.ok t) true (.raiseGeneric msg) doc).logs) := by
  have ht := modelStage_predictError "text" reg fn ext t msg doc hfn hext hreg hnb
  have ho := modelStage_predictError "ocr" reg fn ext t msg doc hfn hext hreg hnb
  exact ⟨⟨ht.1, ht.2.2.1, ht.2.2.2⟩, ⟨ho.1, ho.2.2.1, ho.2.2.2⟩⟩

/-- Witness for C3 at the inputs of
`test_stage_text_model_prediction_error`. -/
theorem claim_C3_witness :
    (stage_text ["txt"] (.ok "some text") true
        (.raiseGeneric "Simulated prediction error")
        ⟨some "predict_error.txt", some "text/plain"⟩).result =
      Except.ok ⟨none, none⟩ ∧
    (⟨"error", "text_stage_model_prediction_error",
        "Simulated prediction error"⟩ : LogEntry) ∈
      (stage_text ["txt"] (.ok "some text") true
        (.raiseGeneric "Simulated prediction error")
        ⟨some "predict_error.txt", some "text/plain"⟩).logs := by
  have h := claim_C3 ["txt"] "predict_error.txt" "txt" "some text"
    "Simulated prediction error" ⟨some "predict_error.txt", some "text/plain"⟩
    rfl (by decide) (by decide) (by decide)
  exact ⟨h.1.1, h.1.2.2⟩

/-- `o` dominates `o'` in confidence: any confidence `o'` carries is
matched or beaten by one `o` carries. -/
def confGE (o o' : StageOutcome) : Prop :=
  ∀ c', o'.confidence = some c' → ∃ c, o.confidence = some c ∧ c' ≤ c

lemma confGE_refl (o : StageOutcome) : confGE o o :=
  fun c h => ⟨c, h, le_refl c⟩

lemma confGE_trans {a b c : StageOutcome} (h1 : confGE a b) (h2 : confGE b c) :
    confGE a c := by
  intro c' hc
  obtain ⟨cb, hb, hle⟩ := h2 c' hc
  obtain ⟨ca, ha, hle2⟩ := h1 cb hb
  exact ⟨ca, ha, le_trans hle hle2⟩

lemma pickBest_cur_none (b c : StageOutcome) (hc : c.confidence = none) :
    pickBest b c = b := by
  unfold pickBest; rw [hc]

lemma pickBest_best_none (b c : StageOutcome) (cc : ℕ)
    (hc : c.confidence = some cc) (hb : b.confidence = none) :
    pickBest b c = c := by
  unfold pickBest; rw [hc, hb]

lemma pickBest_some_some (b c : StageOutcome) (cc cb : ℕ)
    (hc : c.confidence = some cc) (hb : b.confidence = some cb) :
    pickBest b c = if cb < cc then c else b := by
  unfold pickBest; rw [hc, hb]

lemma pickBest_cases (b c : StageOutcome) :
    pickBest b c = b ∨ pickBest b c = c := by
  rcases hc : c.confidence with _ | cc
  · exact Or.inl (pickBest_cur_none b c hc)
  · rcases hb : b.confidence with _ | cb
    · exact Or.inr (pickBest_best_none b c cc hc hb)
    · rw [pickBest_some_some b c cc cb hc hb]
      by_cases hlt : cb < cc
      · simp [hlt]
      · simp [hlt]

lemma confGE_pickBest_left (b c : StageOutcome) : confGE (pickBest b c) b := by
  intro c' h
  rcases hc : c.confidence with _ | cc
  · rw [pickBest_cur_none b c hc]
    exact ⟨c', h, le_refl c'⟩
  · rcases hb : b.confidence with _ | cb
    · rw [hb] at h; cases h
    · rw [hb] at h
      obtain rfl : cb = c' := by injection h
      rw [pickBest_some_some b c cc cb hc hb]
      by_cases hlt : cb < cc
      · rw [if_pos hlt, hc]
        exact ⟨cc, rfl, le_of_lt hlt⟩
      · rw [if_neg hlt, hb]
        exact ⟨cb, rfl, le_refl cb⟩

lemma confGE_pickBest_right (b c : StageOutcome) : confGE (pickBest b c) c := by
  intro c' h
  rcases hb : b.confidence with _ | cb
  · rw [pickBest_best_none b c c' h hb, h]
    exact ⟨c', rfl, le_refl c'⟩
  · rw [pickBest_some_some b c c' cb h hb]
    by_cases hlt : cb < c'
    · rw [if_pos hlt, h]
      exact ⟨c', rfl, le_refl c'⟩
    · rw [if_neg hlt, hb]
      exact ⟨cb, rfl, le_of_not_lt hlt⟩

lemma classifyAux_all_low (θ : ℕ) :
    ∀ (ss : List (Except MetadataProcessingError StageOutcome))
      (best : StageOutcome),
    (∀ x ∈ ss, ∃ o', x = Except.ok o' ∧ highConf θ o' = false) →
    ∃ o, classifyAux θ best ss = (Except.ok o, ss.length) ∧
      (o = best ∨ Except.ok o ∈ ss) ∧ confGE o best ∧
      (∀ x o', x ∈ ss → x = Except.ok o' → confGE o o') := by
  intro ss
  induction ss with
  | nil =>
    intro best _
    exact ⟨best, rfl, Or.inl rfl, confGE_refl best, by simp⟩
  | cons x rest ih =>
    intro best h
    obtain ⟨o₀, hx, hlow⟩ := h x (List.mem_cons_self x rest)
    subst hx
    obtain ⟨o, hrun, hmem, hgeb, hgeall⟩ :=
      ih (pickBest best o₀) (fun y hy => h y (List.mem_cons_of_mem _ hy))
    refine ⟨o, ?_, ?_, confGE_trans hgeb (confGE_pickBest_left best o₀), ?_⟩
    · simp only [classifyAux, hlow, Bool.false_eq_true, if_false]
      rw [hrun]
      simp
    · rcases hmem with hm | hm
      · rcases pickBest_cases best o₀ with hp | hp
        · exact Or.inl (hm.trans hp)
        · exact Or.inr (by rw [hm, hp]; exact List.mem_cons_self _ _)
      · exact Or.inr (List.mem_cons_of_mem _ hm)
    · intro y o' hy hyo
      rcases List.mem_cons.mp hy with hh | hh
      · rw [hh] at hyo
        obtain rfl : o₀ = o' := by injection hyo
        exact confGE_trans hgeb (confGE_pickBest_right best o₀)
      · exact hgeall y o' hh hyo

lemma classifyAux_early (θ : ℕ) :
    ∀ (pre : List (Except MetadataProcessingError StageOutcome))
      (best o : StageOutcome)
      (rest : List (Except MetadataProcessingError StageOutcome)),
    (∀ x ∈ pre, ∃ o', x = Except.ok o' ∧ highConf θ o' = false) →
    highConf θ o = true →
    classifyAux θ best (pre ++ Except.ok o :: rest) =
      (Except.ok o, pre.length + 1) := by
  intro pre
  induction pre with
  | nil =>
    intro best o rest _ hh
    simp [classifyAux, hh]
  | cons x pre ih =>
    intro best o rest h hh
    obtain ⟨o₀, hx, hlow⟩ := h x (List.mem_cons_self x pre)
    subst hx
    simp only [List.cons_append, classifyAux, hlow, Bool.false_eq_true,
      if_false, List.append_eq]
    rw [ih (pickBest best o₀) o rest
      (fun y hy => h y (List.mem_cons_of_mem _ hy)) hh]
    simp [List.length_cons]

lemma classifyAux_all_none (θ : ℕ) :
    ∀ (ss : List (Except MetadataProcessingError StageOutcome))
      (best : StageOutcome),
    (∀ x ∈ ss, x = Except.ok (⟨none, none⟩ : StageOutcome)) →
    classifyAux θ best ss = (Except.ok best, ss.length) := by
  intro ss
  induction ss with
  | nil => intro best _; rfl
  | cons x rest ih =>
    intro best h
    have hx := h x (List.mem_cons_self x rest)
    subst hx
    have hlow : highConf θ (⟨none, none⟩ : StageOutcome) = false := rfl
    simp only [classifyAux, hlow, Bool.false_eq_true, if_false]
    have hpick : pickBest best (⟨none, none⟩ : StageOutcome) = best := rfl
    rw [hpick, ih best (fun y hy => h y (List.mem_cons_of_mem _ hy))]
    simp

/-- C4: the orchestrator consumes the stage results in the given priority
order (filename, metadata, text, ocr).  (1) As soon as a stage reaches the
high-confidence threshold, `classify` returns that outcome having invoked
only the stages up to and including it (`pre.length + 1`), so no later
stage runs.  (2) When no stage reaches the threshold, every stage is
invoked and the result is a non-null outcome drawn from the stages whose
confidence dominates every reported confidence, or `(none, none)`.
(3) When every stage reports no opinion, the result is
`Outcome(None, None)`. -/
theorem claim_C4 (θ : ℕ) :
    (∀ (pre rest : List (Except MetadataProcessingError StageOutcome))
        (o : StageOutcome),
      (∀ x ∈ pre, ∃ o', x = Except.ok o' ∧ highConf θ o' = false) →
      highConf θ o = true →
      classify θ (pre ++ Except.ok o :: rest) =
        (Except.ok o, pre.length + 1)) ∧
    (∀ ss : List (Except MetadataProcessingError StageOutcome),
      (∀ x ∈ ss, ∃ o', x = Except.ok o' ∧ highConf θ o' = false) →
      ∃ o, classify θ ss = (Except.ok o, ss.length) ∧
        (o = ⟨none, none⟩ ∨ Except.ok o ∈ ss) ∧
        (∀ x o' c', x ∈ ss → x = Except.ok o' → o'.confidence = some c' →
          ∃ c, o.confidence = some c ∧ c' ≤ c)) ∧
    (∀ ss : List (Except MetadataProcessingError StageOutcome),
      (∀ x ∈ ss, x = Except.ok (⟨none, none⟩ : StageOutcome)) →
      (classify θ ss).1 = Except.ok ⟨none, none⟩) := by
  refine ⟨?_, ?_, ?_⟩
  · intro pre rest o hpre hh
    exact classifyAux_early θ pre ⟨none, none⟩ o rest hpre hh
  · intro ss hss
    obtain ⟨o, hrun, hmem, _, hgeall⟩ :=
      classifyAux_all_low θ ss ⟨none, none⟩ hss
    exact ⟨o, hrun, hmem, fun x o' c' hx hxo hc =>
      hgeall x o' hx hxo c' hc⟩
  · intro ss hss
    rw [show classify θ ss = (Except.ok ⟨none, none⟩, ss.length) from
      classifyAux_all_none θ ss ⟨none, none⟩ hss]

/-- Witness for C4: a decisive second stage (confidence 92 ≥ threshold 90)
stops the pipeline after two invocations, ignoring a later stage with even
higher confidence. -/
theorem claim_C4_witness :
    classify 90
      [Except.ok ⟨some "invoice", some 85⟩,
       Except.ok ⟨some "contract", some 92⟩,
       Except.ok ⟨some "form", some 99⟩] =
      (Except.ok ⟨some "contract", some 92⟩, 2) := by
  have hpre : ∀ x ∈ [(Except.ok ⟨some "invoice", some 85⟩ :
      Except MetadataProcessingError StageOutcome)],
      ∃ o', x = Except.ok o' ∧ highConf 90 o' = false := by
    intro x hx
    simp only [List.mem_singleton] at hx
    exact ⟨⟨some "invoice", some 85⟩, hx, by decide⟩
  exact (claim_C4 90).1 [Except.ok ⟨some "invoice", some 85⟩]
    [Except.ok ⟨some "form", some 99⟩] ⟨some "contract", some 92⟩
    hpre (by decide)

/-- C9: with `extra` equal to `None` or `{}` (falsy), the `"error"` object
of `_build_error_payload` holds exactly the keys `code`, `message`,
`request_id` in that order; a non-empty `extra` is merged in, so an extra
entry keyed `"code"`, `"message"` or `"request_id"` silently overwrites the
standard field in place, while a fresh key is appended after them. -/
theorem claim_C9 (code : CodeVal) (msg : String) (rid : Option String)
    (v : JVal) (k : String)
    (hk : k ≠ "code" ∧ k ≠ "message" ∧ k ≠ "request_id") :
    keysOf (errFields (build_error_payload code msg rid none)) =
      ["code", "message", "request_id"] ∧
    keysOf (errFields (build_error_payload code msg rid (some []))) =
      ["code", "message", "request_id"] ∧
    errFields (build_error_payload code msg rid (some [("code", v)])) =
      [("code", v), ("message", .s msg), ("request_id", optStr rid)] ∧
    errFields (build_error_payload code msg rid (some [("message", v)])) =
      [("code", codeToJVal code), ("message", v),
        ("request_id", optStr rid)] ∧
    errFields (build_error_payload code msg rid (some [("request_id", v)])) =
      [("code", codeToJVal code), ("message", .s msg), ("request_id", v)] ∧
    errFields (build_error_payload code msg rid (some [(k, v)])) =
      [("code", codeToJVal code), ("message", .s msg),
        ("request_id", optStr rid), (k, v)] := by
  obtain ⟨h1, h2, h3⟩ := hk
  refine ⟨rfl, rfl, rfl, rfl, rfl, ?_⟩
  simp [build_error_payload, dictUpdate, errFields, keysOf, beq_iff_eq,
    Ne.symm h1, Ne.symm h2, Ne.symm h3]

/-- Witness for C9: merging the fresh key `"details"` appends it after the
three standard fields. -/
theorem claim_C9_witness :
    errFields (build_error_payload (.str "validation_error")
        "Invalid request parameters." (some "req-1")
        (some [("details", .arr [])])) =
      [("code", .s "validation_error"),
        ("message", .s "Invalid request parameters."),
        ("request_id", .s "req-1"), ("details", .arr [])] := by
  have h := claim_C9 (.str "validation_error") "Invalid request parameters."
    (some "req-1") (.arr []) "details" (by refine ⟨?_, ?_, ?_⟩ <;> decide)
  exact h.2.2.2.2.2

/-- C10: `_validation_error_handler` always responds 422 with error code
`"validation_error"`, message `"Invalid request parameters."` and the
request id it was given; any exception that is not a
`RequestValidationError` is first wrapped into a synthetic one whose single
detail carries the exception's string form (the handler is a total
function of its input, so it never raises). -/
theorem claim_C10 (rid : Option String) (exc : PyExc) :
    (validation_error_handler rid exc).status_code = 422 ∧
    lookupKey (errFields (validation_error_handler rid exc).content) "code" =
      some (.s "validation_error") ∧
    lookupKey (errFields (validation_error_handler rid exc).content)
      "message" = some (.s "Invalid request parameters.") ∧
    lookupKey (errFields (validation_error_handler rid exc).content)
      "request_id" = some (optStr rid) ∧
    (∀ m, exc = .other m →
      lookupKey (errFields (validation_error_handler rid exc).content)
        "details" = some (.arr [detailToJVal ⟨[], m, "error"⟩])) := by
  refine ⟨rfl, rfl, rfl, rfl, ?_⟩
  intro m hm
  subst hm
  rfl

/-- Witness for C10: a generic `ValueError`-style exception with message
`"boom"` yields 422 and a single synthetic validation detail. -/
theorem claim_C10_witness :
    (validation_error_handler (some "rid-1") (.other "boom")).status_code =
      422 ∧
    lookupKey
      (errFields (validation_error_handler (some "rid-1")
        (.other "boom")).content) "details" =
      some (.arr [detailToJVal ⟨[], "boom", "error"⟩]) := by
  have h := claim_C10 (some "rid-1") (.other "boom")
  exact ⟨h.1, h.2.2.2.2 "boom" rfl⟩
